import Mathlib

/-!
# A shallow embedding of the luawrapper marshaling layer (src/include/LuaContext.hpp)

This file models the value-marshaling core of the `LuaContext` class: the
`Pusher` (write) and `Reader` (read) template specializations, the
`readTopAndPop` / `readVariable` / `writeVariable` entry points, the
function-call protocol (`FunctionArgumentsCounter`, the `callback` of
`Pusher<TReturnType (TParameters...)>`, `callRaw`), and the per-type
registration tables in the Lua registry (`checkTypeRegistration`,
`registerMemberImpl`, the `__newindex` handler of custom objects).

The embedded Lua runtime itself is out of scope for the repository; the model
follows the documented behaviour of the Lua C API functions that the source
calls (`lua_isnumber` / `lua_tonumber` accept numbers and strings convertible
to numbers, `lua_isstring` / `lua_tostring` accept strings and numbers,
`lua_settable` / `lua_next` on tables, `lua_pcall` error codes).  Lua numbers
(C doubles) are modelled as rationals; the string-to-number conversion is
modelled for plain decimal numerals, which covers every use in this file.
-/

/-- The host-side type grammar: the C++ types for which the source provides
`Pusher` / `Reader` machinery and which the claims mention.  `obj c` is an
arbitrary user class (two different classes get two different values of `c`);
`exnPtr` is `std::exception_ptr`, which the source pushes through the generic
custom-object `Pusher`.  Note there is no `Reader` specialization for
`std::vector<T>` in the source, so reading at `seq t` falls back to the
generic custom-object reader, exactly as the primary `Reader` template does
for any unlisted type. -/
inductive HTy where
  | bool : HTy
  | int : HTy
  | num : HTy
  | str : HTy
  | fn : HTy
  | seq : HTy → HTy
  | seqPairs : HTy → HTy → HTy
  | assocMap : HTy → HTy → HTy
  | opt : HTy → HTy
  | sum : List HTy → HTy
  | obj : Nat → HTy
  | exnPtr : HTy

mutual

/-- Structural (typeid) equality of host types: two C++ types have the same
`std::type_info` exactly when they are the same type. -/
def HTy.beq : HTy → HTy → Bool
  | .bool, .bool => true
  | .int, .int => true
  | .num, .num => true
  | .str, .str => true
  | .fn, .fn => true
  | .seq a, .seq b => HTy.beq a b
  | .seqPairs a b, .seqPairs c d => HTy.beq a c && HTy.beq b d
  | .assocMap a b, .assocMap c d => HTy.beq a c && HTy.beq b d
  | .opt a, .opt b => HTy.beq a b
  | .sum as, .sum bs => HTy.beqList as bs
  | .obj a, .obj b => a == b
  | .exnPtr, .exnPtr => true
  | _, _ => false

def HTy.beqList : List HTy → List HTy → Bool
  | [], [] => true
  | a :: as, b :: bs => HTy.beq a b && HTy.beqList as bs
  | _, _ => false

end

/-- One dynamically-typed Lua value, as held in one stack slot.  A `table` is
its list of key/value entries (the source only ever builds fresh tables and
reads them back with `lua_next`, so value semantics is faithful; the model
fixes the traversal order of `lua_next` to be insertion order).  A `userdata`
carries the `_typeid` token of its metatable (the `std::type_info*` of the
host type, modelled as the host type itself) and an opaque payload standing
for the host object stored in it.  `lightuserdata` is a raw pointer value,
used by the source as registry key (`std::type_info*`). -/
inductive LuaVal where
  | nil : LuaVal
  | boolean : Bool → LuaVal
  | number : ℚ → LuaVal
  | str : String → LuaVal
  | table : List (LuaVal × LuaVal) → LuaVal
  | luafunction : Nat → LuaVal
  | userdata : HTy → Nat → LuaVal
  | lightuserdata : Nat → LuaVal

/-- `lua_typename (lua_type v)`: the category name of a value. -/
def luaTypeOf : LuaVal → String
  | .nil => "nil"
  | .boolean _ => "boolean"
  | .number _ => "number"
  | .str _ => "string"
  | .table _ => "table"
  | .luafunction _ => "function"
  | .userdata _ _ => "userdata"
  | .lightuserdata _ => "userdata"

def LuaVal.isNil : LuaVal → Bool
  | .nil => true
  | _ => false

def LuaVal.isBoolean : LuaVal → Bool
  | .boolean _ => true
  | _ => false

def LuaVal.isTable : LuaVal → Bool
  | .table _ => true
  | _ => false

def LuaVal.isFunction : LuaVal → Bool
  | .luafunction _ => true
  | _ => false

/-- Digits of a decimal numeral, or `none` if the character list is empty or
contains a non-digit. -/
def parseDigits (cs : List Char) : Option ℕ :=
  if cs.isEmpty then none
  else if cs.all Char.isDigit then
    some (cs.foldl (fun a c => 10 * a + (c.toNat - 48)) 0)
  else none

/-- Lua's string-to-number conversion, modelled for plain decimal numerals
with an optional sign and an optional fractional part (the runtime also
accepts hexadecimal and exponent forms, which the source and the claims never
rely on). -/
def parseNum (s : String) : Option ℚ :=
  let (neg, body) :=
    match s.toList with
    | '-' :: rest => (true, rest)
    | cs => (false, cs)
  let signed : ℚ → ℚ := fun q => if neg then -q else q
  match body.splitOn '.' with
  | [ip] =>
    match parseDigits ip with
    | some n => some (signed n)
    | none => none
  | [ip, fp] =>
    match parseDigits ip, parseDigits fp with
    | some n, some f => some (signed ((n : ℚ) + (f : ℚ) / ((10 : ℚ) ^ fp.length)))
    | _, _ => none
  | _ => none

/-- `lua_tonumber`: numbers convert to themselves, strings via the numeral
conversion, everything else to nothing (the C function returns 0 there). -/
def luaToNumber : LuaVal → Option ℚ
  | .number q => some q
  | .str s => parseNum s
  | _ => none

/-- `lua_isnumber`: true for a number or a string convertible to a number. -/
def luaIsNumber (v : LuaVal) : Bool := (luaToNumber v).isSome

/-- `lua_tonumber` with the C default 0 for non-convertible values. -/
def luaToNumberD (v : LuaVal) : ℚ := (luaToNumber v).getD 0

/-- Rendering of a Lua number as a string (the runtime uses `"%.14g"`; the
model renders integral numbers exactly as the runtime does and leaves other
values in fraction notation, which no modelled code path depends on). -/
def renderNum (q : ℚ) : String :=
  if q.den = 1 then toString q.num else toString q

/-- `lua_tostring`: strings convert to themselves, numbers are rendered to a
numeral; for every other value the C function returns a null pointer. -/
def luaToString : LuaVal → Option String
  | .str s => some s
  | .number q => some (renderNum q)
  | _ => none

/-- `lua_isstring`: true for a string or a number. -/
def luaIsString (v : LuaVal) : Bool := (luaToString v).isSome

/-- `lua_toboolean`: false exactly for nil and false. -/
def luaToBoolean : LuaVal → Bool
  | .nil => false
  | .boolean b => b
  | _ => true

/-- `fmod(x, 1.) == 0`: the number has zero fractional part. -/
def ratIsInt (q : ℚ) : Bool := q.den == 1

/-- The C cast / `lua_tointeger` double-to-integer conversion: truncation,
exact on integral inputs (the only inputs the source feeds it after its
`fmod` check). -/
def ratToInt (q : ℚ) : ℤ := if q.den = 1 then q.num else q.num / (q.den : ℤ)

/-- Raw (metamethod-free) Lua equality, as used by `lua_settable` /
`lua_rawget` key lookup.  Primitive values compare by content; tables,
functions and full userdata compare by object identity, and since the
modelled code only ever creates fresh ones and never uses them as table keys,
the model conservatively makes distinct-looking ones unequal. -/
def luaRawEq : LuaVal → LuaVal → Bool
  | .nil, .nil => true
  | .boolean a, .boolean b => a == b
  | .number a, .number b => a == b
  | .str a, .str b => a == b
  | .lightuserdata a, .lightuserdata b => a == b
  | _, _ => false

/-- `t[k] = v` by `lua_settable`: overwrite the entry with a raw-equal key if
present, append otherwise; assigning nil removes the key. -/
def tableSet (es : List (LuaVal × LuaVal)) (k v : LuaVal) : List (LuaVal × LuaVal) :=
  if v.isNil then es.filter (fun p => !(luaRawEq p.1 k))
  else if es.any (fun p => luaRawEq p.1 k) then
    es.map (fun p => if luaRawEq p.1 k then (p.1, v) else p)
  else es ++ [(k, v)]

/-- `lua_rawget`: the value stored under a raw-equal key, nil if absent. -/
def rawget (es : List (LuaVal × LuaVal)) (k : LuaVal) : LuaVal :=
  match es.find? (fun p => luaRawEq p.1 k) with
  | some p => p.2
  | none => .nil

/-- The host-side value universe for the writable/readable types.  `variant i
v` is a `boost::variant` holding alternative number `i` (0-based) with value
`v`; `fnRef` is a `LuaFunctionCaller` / `std::function` handle onto a Lua
function; `obj` is an opaque host object (its class token and contents). -/
inductive HVal where
  | bool : Bool → HVal
  | int : ℤ → HVal
  | num : ℚ → HVal
  | str : String → HVal
  | seq : List HVal → HVal
  | pairs : List (HVal × HVal) → HVal
  | assoc : List (HVal × HVal) → HVal
  | opt : Option HVal → HVal
  | variant : Nat → HVal → HVal
  | fnRef : Nat → HVal
  | obj : HTy → Nat → HVal

mutual

/-- The `Pusher` specializations for data values, combined: what one
`writeVariable`-style push leaves in the written slot.  Scalars push
themselves; `std::vector<T>` builds a table keyed 1..n; `std::map` /
`std::unordered_map` / `std::vector<std::pair<K,V>>` build a table with one
`lua_settable` per pair; `boost::optional` pushes nil when empty and its
content otherwise; `boost::variant` pushes whichever alternative it holds; a
custom object becomes a userdata tagged with its `_typeid`. -/
def hostToLua : HVal → LuaVal
  | .bool b => .boolean b
  | .int n => .number (n : ℚ)
  | .num q => .number q
  | .str s => .str s
  | .seq l => .table (seqFold 1 l [])
  | .pairs l => .table (pairsFold l [])
  | .assoc l => .table (pairsFold l [])
  | .opt none => .nil
  | .opt (some v) => hostToLua v
  | .variant _ v => hostToLua v
  | .fnRef i => .luafunction i
  | .obj c p => .userdata c p

/-- The loop of `Pusher<std::vector<TType>>::push`: `t[i+1] = value[i]`. -/
def seqFold (i : ℕ) : List HVal → List (LuaVal × LuaVal) → List (LuaVal × LuaVal)
  | [], acc => acc
  | x :: xs, acc => seqFold (i + 1) xs (tableSet acc (.number (i : ℚ)) (hostToLua x))

/-- The loop of the map / vector-of-pairs pushers: push key, push value,
`lua_settable`, for each pair in iteration order. -/
def pairsFold : List (HVal × HVal) → List (LuaVal × LuaVal) → List (LuaVal × LuaVal)
  | [], acc => acc
  | (k, v) :: xs, acc => pairsFold xs (tableSet acc (hostToLua k) (hostToLua v))

end

/-- The requested destination type of a read, as carried by
`WrongTypeException` (`typeid(...)` of the target): either a single readable
type, or the parameter tuple of a function being decoded. -/
inductive Target where
  | single : HTy → Target
  | tuple : List HTy → Target

mutual

/-- Display names standing in for `std::type_info::name()` (the source embeds
the implementation-defined mangled name in error messages; nothing depends on
the exact spelling). -/
def tyName : HTy → String
  | .bool => "bool"
  | .int => "int"
  | .num => "double"
  | .str => "string"
  | .fn => "function"
  | .seq t => "vector<" ++ tyName t ++ ">"
  | .seqPairs a b => "vector<pair<" ++ tyName a ++ "," ++ tyName b ++ ">>"
  | .assocMap a b => "map<" ++ tyName a ++ "," ++ tyName b ++ ">"
  | .opt t => "optional<" ++ tyName t ++ ">"
  | .sum ts => "variant<" ++ tyNameList ts ++ ">"
  | .obj c => "class" ++ toString c
  | .exnPtr => "exception_ptr"

def tyNameList : List HTy → String
  | [] => ""
  | [t] => tyName t
  | t :: ts => tyName t ++ "," ++ tyNameList ts

end

def targetName : Target → String
  | .single t => tyName t
  | .tuple ts => "tuple<" ++ tyNameList ts ++ ">"

/-- The payload of a `WrongTypeException`: the observed Lua category name
(`lua_typename` of the inspected slot) and the requested destination type
identity. -/
structure Err where
  luaType : String
  target : Target

/-- `IsOptional<T>`: true exactly for `boost::optional<...>`. -/
def IsOptional : HTy → Bool
  | .opt _ => true
  | _ => false

/-- The primary (custom object) `Reader` template's `test`: the slot must be
a userdata whose metatable `_typeid` equals the requested type's
`std::type_info` exactly. -/
def genericTest (t : HTy) : LuaVal → Bool
  | .userdata tok _ => HTy.beq tok t
  | _ => false

/-- The primary `Reader` template's `read`: cast the userdata storage to the
host type (the source dereferences `lua_touserdata` unconditionally; the
model returns the stored host object, and an error on a non-userdata slot,
which the source only ever reaches after a successful `test`). -/
def genericRead (t : HTy) : LuaVal → Except Err HVal
  | .userdata tok p => .ok (.obj tok p)
  | v => .error ⟨luaTypeOf v, .single t⟩

mutual

/-- A structural size for host types that ignores scalar leaf content, used
only as the termination measure of the reader functions. -/
def tySize : HTy → ℕ
  | .seq t => 1 + tySize t
  | .seqPairs a b => 1 + tySize a + tySize b
  | .assocMap a b => 1 + tySize a + tySize b
  | .opt t => 1 + tySize t
  | .sum ts => 1 + tySizeList ts
  | _ => 1

def tySizeList : List HTy → ℕ
  | [] => 1
  | t :: ts => 1 + tySize t + tySizeList ts

end

mutual

/-- A structural size for Lua values that ignores scalar leaf content, used
only as the termination measure of the reader functions. -/
def luaSize : LuaVal → ℕ
  | .table es => 1 + luaSizeEntries es
  | _ => 1

def luaSizeEntries : List (LuaVal × LuaVal) → ℕ
  | [] => 1
  | (k, v) :: rest => 1 + luaSize k + luaSize v + luaSizeEntries rest

end

/-- `testRead` of the primary (custom object) `Reader` template: test, then
read. -/
def genericTestRead (t : HTy) (v : LuaVal) : Option HVal :=
  if genericTest t v then
    match v with
    | .userdata tok p => some (.obj tok p)
    | _ => none
  else none

mutual

/-- The `test` member of each `Reader` specialization, dispatched on the
requested host type.  Since the source has no `Reader` for `std::vector<T>`,
the `seq` case is the primary template's userdata/typeid test. -/
def Reader.test : HTy → LuaVal → Bool
  | .bool, v => v.isBoolean
  | .int, v => luaIsNumber v && ratIsInt (luaToNumberD v)
  | .num, v => luaIsNumber v
  | .str, v => luaIsString v
  | .fn, v => v.isFunction
  | .seq t, v => genericTest (.seq t) v
  | .seqPairs _ _, v => v.isTable
  | .assocMap _ _, v => v.isTable
  | .opt t, v => v.isNil || Reader.test t v
  | .sum ts, v => Reader.testAny ts v
  | .obj c, v => genericTest (.obj c) v
  | .exnPtr, v => genericTest .exnPtr v
termination_by t v => 4 * tySize t + 4 * luaSize v
decreasing_by all_goals (simp_wf; try simp [tySize, tySizeList, luaSize, luaSizeEntries]; try omega)

/-- The alternative-by-alternative `test` of
`Reader<boost::variant<TTypes...>>::VariantReader`. -/
def Reader.testAny : List HTy → LuaVal → Bool
  | [], _ => false
  | t :: ts, v => Reader.test t v || Reader.testAny ts v
termination_by ts v => 4 * tySizeList ts + 4 * luaSize v
decreasing_by all_goals (simp_wf; try simp [tySize, tySizeList, luaSize, luaSizeEntries]; try omega)

/-- The `read` member of each `Reader` specialization: unconditional
extraction, assuming `test` has passed.  For maps and vectors-of-pairs the
source defines `read` as a call to `readSafe`, so those cases can fail; the
scalar cases mirror the raw `lua_toX` conversions. -/
def Reader.read : HTy → LuaVal → Except Err HVal
  | .bool, v => .ok (.bool (luaToBoolean v))
  | .int, v => .ok (.int (ratToInt (luaToNumberD v)))
  | .num, v => .ok (.num (luaToNumberD v))
  | .str, v => .ok (.str ((luaToString v).getD ""))
  | .fn, v => .ok (.fnRef (match v with | .luafunction i => i | _ => 0))
  | .seq t, v => genericRead (.seq t) v
  | .seqPairs kt vt, v =>
    match v with
    | .table es => (Reader.tableReadSafe kt vt es).map HVal.pairs
    | w => .error ⟨luaTypeOf w, .single (.seqPairs kt vt)⟩
  | .assocMap kt vt, v =>
    match v with
    | .table es => (Reader.tableReadSafe kt vt es).map HVal.assoc
    | w => .error ⟨luaTypeOf w, .single (.assocMap kt vt)⟩
  | .opt t, v =>
    if v.isNil then .ok (.opt none)
    else (Reader.read t v).map (fun h => .opt (some h))
  | .sum ts, v => Reader.variantReadSafe ts 0 ts v
  | .obj c, v => genericRead (.obj c) v
  | .exnPtr, v => genericRead .exnPtr v
termination_by t v => 4 * tySize t + 4 * luaSize v
decreasing_by all_goals (simp_wf; try simp [tySize, tySizeList, luaSize, luaSizeEntries]; try omega)

/-- The `testRead` member of each `Reader` specialization: returns `none`
instead of failing.  The integral case re-implements the check (the
`lua_isnumber` / `fmod` sequence) rather than going through `test`; the
string case goes through `lua_tostring` directly; the optional case always
succeeds, wrapping a failed inner `testRead` as the empty optional. -/
def Reader.testRead : HTy → LuaVal → Option HVal
  | .bool, v => if Reader.test .bool v then some (.bool (luaToBoolean v)) else none
  | .int, v =>
    if !luaIsNumber v then none
    else
      let nb := luaToNumberD v
      if ratIsInt nb then some (.int (ratToInt nb)) else none
  | .num, v => if Reader.test .num v then some (.num (luaToNumberD v)) else none
  | .str, v =>
    match luaToString v with
    | some s => some (.str s)
    | none => none
  | .fn, v =>
    match v with
    | .luafunction i => some (.fnRef i)
    | _ => none
  | .seq t, v => genericTestRead (.seq t) v
  | .seqPairs kt vt, v =>
    match v with
    | .table es => (Reader.tableTestRead kt vt es).map HVal.pairs
    | _ => none
  | .assocMap kt vt, v =>
    match v with
    | .table es => (Reader.tableTestRead kt vt es).map HVal.assoc
    | _ => none
  | .opt t, v =>
    if v.isNil then some (.opt none)
    else some (.opt (Reader.testRead t v))
  | .sum ts, v => Reader.variantTestRead ts 0 ts v
  | .obj c, v => genericTestRead (.obj c) v
  | .exnPtr, v => genericTestRead .exnPtr v
termination_by t v => 4 * tySize t + 4 * luaSize v + 1
decreasing_by all_goals (simp_wf; try simp [tySize, tySizeList, luaSize, luaSizeEntries]; try omega)

/-- The `lua_next` traversal of the `testRead` members of the map /
vector-of-pairs readers: read key and value with the element `testRead`s,
abort with `none` on the first mismatch. -/
def Reader.tableTestRead (kt vt : HTy) : List (LuaVal × LuaVal) → Option (List (HVal × HVal))
  | [] => some []
  | (k, v) :: rest =>
    match Reader.testRead kt k, Reader.testRead vt v with
    | some hk, some hv => (Reader.tableTestRead kt vt rest).map (fun r => (hk, hv) :: r)
    | _, _ => none
termination_by es => 4 * (tySize kt + tySize vt + 1) + 4 * luaSizeEntries es + 1
decreasing_by all_goals (simp_wf; try simp [tySize, tySizeList, luaSize, luaSizeEntries]; try omega)

/-- `Reader<boost::variant<...>>::VariantReader::testRead`: try the
alternatives left to right, choosing the first whose `test` succeeds; `i` is
the 0-based index of the head of the remaining list inside the full
alternative list.  (If the chosen alternative's `read` fails, the source lets
that exception propagate; the model folds it into a failed `testRead`, a case
no modelled code path reaches.) -/
def Reader.variantTestRead (full : List HTy) (i : ℕ) : List HTy → LuaVal → Option HVal
  | [], _ => none
  | t :: rest, v =>
    if Reader.test t v then
      match Reader.read t v with
      | .ok h => some (.variant i h)
      | .error _ => none
    else Reader.variantTestRead full (i + 1) rest v
termination_by rem v => 4 * tySizeList rem + 4 * luaSize v + 1
decreasing_by all_goals (simp_wf; try simp [tySize, tySizeList, luaSize, luaSizeEntries]; try omega)

/-- The `readSafe` member of each `Reader` specialization: like `testRead`
but raising `WrongTypeException` (with the observed category name and the
requested type identity) on mismatch. -/
def Reader.readSafe : HTy → LuaVal → Except Err HVal
  | .bool, v =>
    if Reader.test .bool v then .ok (.bool (luaToBoolean v))
    else .error ⟨luaTypeOf v, .single .bool⟩
  | .int, v =>
    match Reader.testRead .int v with
    | some h => .ok h
    | none => .error ⟨luaTypeOf v, .single .int⟩
  | .num, v =>
    if Reader.test .num v then .ok (.num (luaToNumberD v))
    else .error ⟨luaTypeOf v, .single .num⟩
  | .str, v =>
    match luaToString v with
    | some s => .ok (.str s)
    | none => .error ⟨luaTypeOf v, .single .str⟩
  | .fn, v =>
    if Reader.test .fn v then Reader.read .fn v
    else .error ⟨luaTypeOf v, .single .fn⟩
  | .seq t, v =>
    if genericTest (.seq t) v then genericRead (.seq t) v
    else .error ⟨luaTypeOf v, .single (.seq t)⟩
  | .seqPairs kt vt, v =>
    match v with
    | .table es => (Reader.tableReadSafe kt vt es).map HVal.pairs
    | w => .error ⟨luaTypeOf w, .single (.seqPairs kt vt)⟩
  | .assocMap kt vt, v =>
    match v with
    | .table es => (Reader.tableReadSafe kt vt es).map HVal.assoc
    | w => .error ⟨luaTypeOf w, .single (.assocMap kt vt)⟩
  | .opt t, v =>
    if v.isNil then .ok (.opt none)
    else (Reader.readSafe t v).map (fun h => .opt (some h))
  | .sum ts, v => Reader.variantReadSafe ts 0 ts v
  | .obj c, v =>
    if genericTest (.obj c) v then genericRead (.obj c) v
    else .error ⟨luaTypeOf v, .single (.obj c)⟩
  | .exnPtr, v =>
    if genericTest .exnPtr v then genericRead .exnPtr v
    else .error ⟨luaTypeOf v, .single .exnPtr⟩
termination_by t v => 4 * tySize t + 4 * luaSize v + 2
decreasing_by all_goals (simp_wf; try simp [tySize, tySizeList, luaSize, luaSizeEntries]; try omega)

/-- The `lua_next` traversal of the `readSafe` members of the map /
vector-of-pairs readers: element failures pop the in-flight key and value and
propagate. -/
def Reader.tableReadSafe (kt vt : HTy) : List (LuaVal × LuaVal) → Except Err (List (HVal × HVal))
  | [] => .ok []
  | (k, v) :: rest => do
    let hk ← Reader.readSafe kt k
    let hv ← Reader.readSafe vt v
    let r ← Reader.tableReadSafe kt vt rest
    pure ((hk, hv) :: r)
termination_by es => 4 * (tySize kt + tySize vt + 1) + 4 * luaSizeEntries es + 2
decreasing_by all_goals (simp_wf; try simp [tySize, tySizeList, luaSize, luaSizeEntries]; try omega)

/-- `Reader<boost::variant<...>>::VariantReader::readSafe`: first alternative
whose `test` succeeds wins; if none matches, `WrongTypeException` with the
observed category name and the full variant type. -/
def Reader.variantReadSafe (full : List HTy) (i : ℕ) : List HTy → LuaVal → Except Err HVal
  | [], v => .error ⟨luaTypeOf v, .single (.sum full)⟩
  | t :: rest, v =>
    if Reader.test t v then (Reader.read t v).map (fun h => .variant i h)
    else Reader.variantReadSafe full (i + 1) rest v
termination_by rem v => 4 * tySizeList rem + 4 * luaSize v + 2
decreasing_by all_goals (simp_wf; try simp [tySize, tySizeList, luaSize, luaSizeEntries]; try omega)

end

/-- `lua_typename (lua_type (state, top))` of a stack (top at the head):
`LUA_TNONE` / `"no value"` when the stack is empty. -/
def luaTypenameTop : List LuaVal → String
  | [] => "no value"
  | v :: _ => luaTypeOf v

/-- `LuaContext::readTopAndPop<TReturnType>(state, 1)`: `testRead` the top
slot, pop it, and on failure throw `WrongTypeException` built from
`lua_type(state, -1)` — evaluated AFTER the pop, i.e. naming the slot that
is now on top (or `"no value"` if the stack became empty), not the popped
value.  The stack travels with the result so the depth is visible on both
the success and the failure path. -/
def readTopAndPop (t : HTy) (st : List LuaVal) : Except (Err × List LuaVal) (HVal × List LuaVal) :=
  match st with
  | [] => .error (⟨"no value", .single t⟩, [])
  | v :: rest =>
    match Reader.testRead t v with
    | some hv => .ok (hv, rest)
    | none => .error (⟨luaTypenameTop rest, .single t⟩, rest)

/-- The global environment of the Lua state (absent globals read as nil). -/
abbrev GEnv : Type := String → LuaVal

/-- `LuaContext::readVariable<TType>(name)`: `lua_getglobal` pushes the
global (nil when unset), then `readTopAndPop` extracts it. -/
def readVariable (t : HTy) (g : GEnv) (name : String) (st : List LuaVal) :
    Except (Err × List LuaVal) (HVal × List LuaVal) :=
  readTopAndPop t (g name :: st)

/-- `LuaContext::writeVariable(name, value)` on the success path: the pushed
marshaled value is stored into the global table and the stack is restored. -/
def writeVariable (g : GEnv) (name : String) (v : HVal) : GEnv :=
  fun n => if n = name then hostToLua v else g n

def emptyEnv : GEnv := fun _ => LuaVal.nil

/-- What `lua_pcall` reported, together with the value(s) it left on the
stack: on success its results, on `LUA_ERRRUN` and `LUA_ERRMEM` the single
pushed error value (the Lua manual: "If there is any error, lua_pcall ...
pushes a single value on the stack (the error message)"). -/
inductive PcallOutcome where
  | success : List LuaVal → PcallOutcome
  | errRun : LuaVal → PcallOutcome
  | errMem : LuaVal → PcallOutcome

/-- The host-visible outcome of a failed marshaling operation. -/
inductive HostErr where
  | badAlloc : HostErr
  | executionError : String → HostErr
  | executionErrorNested : String → Nat → HostErr
  | wrongType : Err → HostErr

/-- `lua_isstring(state, 1)`: the source checks stringness at absolute index
1, the BOTTOM of the stack. -/
def luaIsStringAt1 (st : List LuaVal) : Bool :=
  match st.getLast? with
  | some v => luaIsString v
  | none => false

/-- `LuaContext::callRaw` after `lua_pcall` has popped the callee and its
arguments (leaving `below`) and pushed its results or error value:
`LUA_ERRMEM` throws `std::bad_alloc` — without popping the pushed error
value; `LUA_ERRRUN` with a string-like error (checked at stack index 1)
becomes `ExecutionErrorException` carrying the string; otherwise the error
value is read back as a `std::exception_ptr` userdata and rethrown nested
inside an `ExecutionErrorException` (`readTopAndPop` raising
`WrongTypeException` if it is neither). -/
def callRaw (below : List LuaVal) (o : PcallOutcome) :
    Except (HostErr × List LuaVal) (List LuaVal) :=
  match o with
  | .success rs => .ok (rs ++ below)
  | .errMem e => .error (.badAlloc, e :: below)
  | .errRun e =>
    if luaIsStringAt1 (e :: below) then
      match readTopAndPop .str (e :: below) with
      | .ok (.str s, rest) => .error (.executionError s, rest)
      | .ok (_, rest) => .error (.executionError "", rest)
      | .error (err, rest) => .error (.wrongType err, rest)
    else
      match readTopAndPop .exnPtr (e :: below) with
      | .ok (.obj _ p, rest) =>
        .error (.executionErrorNested "Exception thrown by a callback function called by Lua" p, rest)
      | .ok (_, rest) => .error (.executionError "", rest)
      | .error (err, rest) => .error (.wrongType err, rest)

/-- `LuaContext::executeCode(code)` (statement form) on an already-loaded
chunk, starting from an empty stack: `call<std::tuple<>>` pushes zero
arguments and invokes `lua_pcall(state, 0, 0, 0)`; on success
`readTopAndPop<std::tuple<>>(state, 0)` pops nothing. -/
def executeCode (o : PcallOutcome) : Except (HostErr × List LuaVal) (List LuaVal) :=
  callRaw [] o

/-- `FunctionArgumentsCounter<...>::min`: a `boost::optional` parameter stops
counting only when every later parameter also counts for zero. -/
def FunctionArgumentsCounter.minArgs : List HTy → ℕ
  | [] => 0
  | t :: ts =>
    if IsOptional t && FunctionArgumentsCounter.minArgs ts == 0 then 0
    else 1 + FunctionArgumentsCounter.minArgs ts

/-- `Reader<std::tuple<...>>::readSafe(state, index, maxSize)` over the
window of provided argument slots: a leading `boost::optional` parameter with
an exhausted budget default-constructs to the empty optional; a non-optional
one with an exhausted budget fails; every failure is rethrown wrapped as
`WrongTypeException{"unknown", typeid(tuple)}` of the tuple suffix at that
nesting level, so the error that escapes carries the full parameter tuple. -/
def Reader.tupleReadSafe : List HTy → List LuaVal → ℤ → Except Err (List HVal)
  | [], _, _ => .ok []
  | t :: ts, slots, maxSize =>
    let wrapped : Err := ⟨"unknown", .tuple (t :: ts)⟩
    if IsOptional t then
      if maxSize ≤ 0 then
        match Reader.tupleReadSafe ts (slots.drop 1) (maxSize - 1) with
        | .ok rest => .ok (HVal.opt none :: rest)
        | .error _ => .error wrapped
      else
        match slots with
        | [] => .error wrapped
        | s :: srest =>
          match Reader.readSafe t s with
          | .error _ => .error wrapped
          | .ok hv =>
            match Reader.tupleReadSafe ts srest (maxSize - 1) with
            | .ok rest => .ok (hv :: rest)
            | .error _ => .error wrapped
    else
      if maxSize ≤ 0 then .error wrapped
      else
        match slots with
        | [] => .error wrapped
        | s :: srest =>
          match Reader.readSafe t s with
          | .error _ => .error wrapped
          | .ok hv =>
            match Reader.tupleReadSafe ts srest (maxSize - 1) with
            | .ok rest => .ok (hv :: rest)
            | .error _ => .error wrapped

/-- What the script-visible callback of
`Pusher<TReturnType (TParameters...)>` does: either report failure to the
runtime via `lua_error` with the pushed error value, or return result
slots. -/
inductive CbOut where
  | err : LuaVal → CbOut
  | ok : List LuaVal → CbOut

/-- `Pusher<TReturnType (TParameters...)>::callback`: check the provided
argument count against the arity bounds (building the message with
`luaL_where`, modelled by the `whereS` prefix, and `lua_pushnumber` /
`lua_concat`); then decode the argument window with the tuple `readSafe`
(`maxSize` = provided count), turning a `WrongTypeException` into a string
error; then invoke the host callable `f` (an exception becomes a pushed
`std::exception_ptr` userdata) and push its tuple of results. -/
def callback (whereS : String) (params : List HTy)
    (f : List HVal → Except Nat (List HVal)) (args : List LuaVal) : CbOut :=
  let n := args.length
  if n < FunctionArgumentsCounter.minArgs params then
    .err (.str (whereS ++ "This function requires at least " ++
      renderNum ((FunctionArgumentsCounter.minArgs params : ℚ)) ++ " parameter(s)"))
  else if n > params.length then
    .err (.str (whereS ++ "This function requires at most " ++
      renderNum ((params.length : ℚ)) ++ " parameter(s)"))
  else
    match Reader.tupleReadSafe params args (n : ℤ) with
    | .error e =>
      .err (.str (whereS ++ "Unable to convert parameter from " ++ e.luaType ++
        " to " ++ targetName e.target))
    | .ok vals =>
      match f vals with
      | .error exn => .err (.userdata .exnPtr exn)
      | .ok res => .ok (res.map hostToLua)

/-- The Lua registry restricted to the per-type registration tables: keyed by
the `std::type_info*` lightuserdata of a host type (modelled as an opaque
token). -/
abbrev Registry : Type := List (Nat × LuaVal)

def regGet (r : Registry) (tok : Nat) : LuaVal :=
  match List.find? (fun p => p.1 == tok) r with
  | some p => p.2
  | none => .nil

def regSet (r : Registry) (tok : Nat) (v : LuaVal) : Registry :=
  if List.any r (fun p => p.1 == tok) then
    List.map (fun p => if p.1 == tok then (tok, v) else p) r
  else r ++ [(tok, v)]

/-- `LuaContext::checkTypeRegistration`: if the registry has no table for the
type token yet, create the fixed-shape table with fresh sub-tables at offsets
0 (function getters), 1 (member getters), 3 (unused) and 4 (member setters);
offsets 2 (default getter) and 5 (default setter) start absent. -/
def checkTypeRegistration (r : Registry) (tok : Nat) : Registry :=
  match regGet r tok with
  | .nil =>
    regSet r tok (.table [(.number 0, .table []), (.number 1, .table []),
      (.number 3, .table []), (.number 4, .table [])])
  | _ => r

/-- `setTable<LUA_REGISTRYINDEX, ...>(state, typeinfo, offset, handler)`:
store a pushed handler directly at a numeric offset of the type's
registration table (the three-argument `setTable` overload used by the
dynamic `registerMemberImpl`). -/
def setTableReg (r : Registry) (tok : Nat) (offset : ℕ) (v : LuaVal) : Registry :=
  match regGet r tok with
  | .table es => regSet r tok (.table (tableSet es (.number (offset : ℚ)) v))
  | _ => r

/-- The dynamic (no fixed name) `registerMemberImpl<TObject, TVarType>`
taking both a read and a write function, lines 971-1022 of the source:
the getter-only overload first stores the adapted dynamic getter at offset 2
for the five reference shapes of the type (value, pointer, const pointer,
shared_ptr, shared_ptr-to-const), then the setter part stores the adapted
dynamic setter at offset 5 for the value shape but at offset 2 for the
pointer and shared_ptr shapes, as literally written in the source. -/
def registerMemberImplDyn (r : Registry)
    (tokV tokP tokCP tokS tokCS : Nat)
    (gV gP gCP gS gCS sV sP sS : LuaVal) : Registry :=
  let r := checkTypeRegistration r tokV
  let r := setTableReg r tokV 2 gV
  let r := checkTypeRegistration r tokP
  let r := setTableReg r tokP 2 gP
  let r := checkTypeRegistration r tokCP
  let r := setTableReg r tokCP 2 gCP
  let r := checkTypeRegistration r tokS
  let r := setTableReg r tokS 2 gS
  let r := checkTypeRegistration r tokCS
  let r := setTableReg r tokCS 2 gCS
  let r := setTableReg r tokV 5 sV
  let r := setTableReg r tokP 2 sP
  let r := setTableReg r tokS 2 sS
  r

/-- Convenience: the slot stored at a numeric offset of a token's
registration table. -/
def regSlot (r : Registry) (tok : Nat) (offset : ℕ) : LuaVal :=
  match regGet r tok with
  | .table es => rawget es (.number (offset : ℚ))
  | _ => .nil

/-- The observable outcome of the `__newindex` handler installed on bound
objects: which handler was invoked with which arguments, or the raised
error. -/
inductive NewIndexOut where
  | memberSetter : LuaVal → List LuaVal → NewIndexOut
  | defaultSetter : LuaVal → List LuaVal → NewIndexOut
  | errorNoSetter : String → NewIndexOut
  | corruptRegistration : NewIndexOut

/-- The `newIndexFunction` lambda of `Pusher<TType>::push` (custom objects),
given the type's registration table and the three Lua arguments (object,
key, value): (1) look the key up in the member-setters table at offset 4 and
invoke the entry with (object, value); (2) otherwise invoke the default
setter at offset 5 with (object, key, value); (3) otherwise raise the error
string "No setter found". -/
def newIndexFunction (reg : List (LuaVal × LuaVal)) (obj key value : LuaVal) : NewIndexOut :=
  match rawget reg (.number 4) with
  | .table setters =>
    match rawget setters key with
    | .nil =>
      match rawget reg (.number 5) with
      | .nil => .errorNoSetter "No setter found"
      | h => .defaultSetter h [obj, key, value]
    | h => .memberSetter h [obj, value]
  | _ => .corruptRegistration

/-! ## Helper lemmas -/

theorem writeVariable_self (g : GEnv) (name : String) (v : HVal) :
    writeVariable g name v name = hostToLua v := by
  simp [writeVariable]

/-- The four single-slot scalar categories used as container elements in the
round-trip theorems, with their well-typedness relation. -/
def FlatOk : HTy → HVal → Bool
  | .bool, .bool _ => true
  | .int, .int _ => true
  | .num, .num _ => true
  | .str, .str _ => true
  | _, _ => false

theorem flat_roundtrip (t : HTy) (v : HVal) (h : FlatOk t v = true) :
    Reader.testRead t (hostToLua v) = some v := by
  cases t <;> cases v <;> simp_all [FlatOk, hostToLua, Reader.testRead, Reader.test,
    LuaVal.isBoolean, luaToBoolean, luaIsNumber, luaToNumber, luaToNumberD, ratIsInt,
    ratToInt, luaToString, luaIsString]

theorem flat_not_nil (t : HTy) (v : HVal) (h : FlatOk t v = true) :
    (hostToLua v).isNil = false := by
  cases t <;> cases v <;> simp_all [FlatOk, hostToLua, LuaVal.isNil]

theorem tableSet_fresh (acc : List (LuaVal × LuaVal)) (k v : LuaVal)
    (hnil : v.isNil = false)
    (hfresh : ∀ q ∈ acc, luaRawEq q.1 k = false) :
    tableSet acc k v = acc ++ [(k, v)] := by
  have hany : acc.any (fun p => luaRawEq p.1 k) = false := by
    simp only [List.any_eq_false]
    intro p hp
    simp [hfresh p hp]
  simp [tableSet, hnil, hany]

theorem pairsFold_eq_append (l : List (HVal × HVal)) (acc : List (LuaVal × LuaVal))
    (hnil : ∀ p ∈ l, (hostToLua p.2).isNil = false)
    (hacc : ∀ p ∈ l, ∀ q ∈ acc, luaRawEq q.1 (hostToLua p.1) = false)
    (hpw : l.Pairwise (fun p q => luaRawEq (hostToLua p.1) (hostToLua q.1) = false)) :
    pairsFold l acc = acc ++ l.map (fun p => (hostToLua p.1, hostToLua p.2)) := by
  induction l generalizing acc with
  | nil => simp [pairsFold]
  | cons hd tl ih =>
    rw [List.pairwise_cons] at hpw
    have hset : tableSet acc (hostToLua hd.1) (hostToLua hd.2)
        = acc ++ [(hostToLua hd.1, hostToLua hd.2)] :=
      tableSet_fresh _ _ _ (hnil hd (by simp)) (fun q hq => hacc hd (by simp) q hq)
    have := ih (acc ++ [(hostToLua hd.1, hostToLua hd.2)])
      (fun p hp => hnil p (by simp [hp]))
      (fun p hp q hq => by
        rcases List.mem_append.mp hq with h | h
        · exact hacc p (by simp [hp]) q h
        · simp only [List.mem_singleton] at h
          subst h
          exact hpw.1 p hp)
      hpw.2
    rcases hd with ⟨k, v⟩
    simp only [pairsFold, hset]
    rw [this]
    simp

theorem tableTestRead_map (kt vt : HTy) (l : List (HVal × HVal))
    (hflat : ∀ p ∈ l, FlatOk kt p.1 = true ∧ FlatOk vt p.2 = true) :
    Reader.tableTestRead kt vt (l.map (fun p => (hostToLua p.1, hostToLua p.2))) = some l := by
  induction l with
  | nil => simp [Reader.tableTestRead]
  | cons hd tl ih =>
    rcases hd with ⟨k, v⟩
    have h1 := flat_roundtrip kt k (hflat ⟨k, v⟩ (by simp)).1
    have h2 := flat_roundtrip vt v (hflat ⟨k, v⟩ (by simp)).2
    have h3 := ih (fun p hp => hflat p (by simp [hp]))
    simp [Reader.tableTestRead, h1, h2, h3]

theorem testAny_eq_false_iff (ts : List HTy) (v : LuaVal) :
    Reader.testAny ts v = false ↔ ∀ u ∈ ts, Reader.test u v = false := by
  induction ts with
  | nil => simp [Reader.testAny]
  | cons t ts ih =>
    rw [Reader.testAny]
    simp only [Bool.or_eq_false_iff, ih, List.mem_cons]
    constructor
    · rintro ⟨h1, h2⟩ u (rfl | hu)
      · exact h1
      · exact h2 u hu
    · intro h
      exact ⟨h t (Or.inl rfl), fun u hu => h u (Or.inr hu)⟩

theorem variantReadSafe_nomatch (full : List HTy) (i : ℕ) (ts : List HTy) (v : LuaVal)
    (h : ∀ u ∈ ts, Reader.test u v = false) :
    Reader.variantReadSafe full i ts v = .error ⟨luaTypeOf v, .single (.sum full)⟩ := by
  induction ts generalizing i with
  | nil => rw [Reader.variantReadSafe]
  | cons t ts ih =>
    rw [Reader.variantReadSafe]
    simp [h t (by simp), ih (i + 1) (fun u hu => h u (by simp [hu]))]

theorem variantReadSafe_first_match (full : List HTy) (i : ℕ) (pre : List HTy) (t : HTy)
    (post : List HTy) (v : LuaVal)
    (hpre : ∀ u ∈ pre, Reader.test u v = false) (ht : Reader.test t v = true) :
    Reader.variantReadSafe full i (pre ++ t :: post) v
      = (Reader.read t v).map (fun h => .variant (i + pre.length) h) := by
  induction pre generalizing i with
  | nil =>
    rw [List.nil_append, Reader.variantReadSafe]
    simp [ht]
  | cons u pre ih =>
    rw [List.cons_append, Reader.variantReadSafe]
    simp only [hpre u (by simp), Bool.false_eq_true, if_false]
    rw [ih (i + 1) (fun w hw => hpre w (by simp [hw]))]
    have : i + 1 + pre.length = i + (u :: pre).length := by simp; omega
    rw [this]

theorem minArgs_eq_zero_iff (ts : List HTy) :
    FunctionArgumentsCounter.minArgs ts = 0 ↔ ts.all IsOptional = true := by
  induction ts with
  | nil => simp [FunctionArgumentsCounter.minArgs]
  | cons t ts ih =>
    rw [FunctionArgumentsCounter.minArgs]
    cases hcond : (IsOptional t && (FunctionArgumentsCounter.minArgs ts == 0)) with
    | true =>
      simp only [Bool.and_eq_true, beq_iff_eq] at hcond
      simp [hcond.1, ih.mp hcond.2]
    | false =>
      simp only [Bool.false_eq_true, if_false]
      simp only [Bool.and_eq_false_iff, beq_eq_false_iff_ne] at hcond
      constructor
      · intro h0
        omega
      · intro hall
        simp only [List.all_cons, Bool.and_eq_true] at hall
        rcases hcond with h | h
        · rw [hall.1] at h
          simp at h
        · exact absurd (ih.mpr hall.2) h

/-- Modelled from the spec: the length of the Optional-only suffix of a
parameter list ("an Optional parameter reduces the minimum only if every
parameter after it is also satisfied by default"). -/
def optOnlySuffix : List HTy → ℕ
  | [] => 0
  | t :: ts => if IsOptional t && ts.all IsOptional then ts.length + 1 else optOnlySuffix ts

theorem optOnlySuffix_le_length (ts : List HTy) : optOnlySuffix ts ≤ ts.length := by
  induction ts with
  | nil => simp [optOnlySuffix]
  | cons t ts ih =>
    rw [optOnlySuffix]
    cases hcond : (IsOptional t && ts.all IsOptional) with
    | true => simp
    | false =>
      simp only [Bool.false_eq_true, if_false, List.length_cons]
      omega

theorem minArgs_le_length (ts : List HTy) :
    FunctionArgumentsCounter.minArgs ts ≤ ts.length := by
  induction ts with
  | nil => simp [FunctionArgumentsCounter.minArgs]
  | cons t ts ih =>
    rw [FunctionArgumentsCounter.minArgs]
    cases hcond : (IsOptional t && (FunctionArgumentsCounter.minArgs ts == 0)) with
    | true => simp
    | false =>
      simp only [Bool.false_eq_true, if_false, List.length_cons]
      omega

theorem minArgs_eq_length_sub_suffix (ts : List HTy) :
    FunctionArgumentsCounter.minArgs ts = ts.length - optOnlySuffix ts := by
  induction ts with
  | nil => simp [FunctionArgumentsCounter.minArgs, optOnlySuffix]
  | cons t ts ih =>
    rw [FunctionArgumentsCounter.minArgs, optOnlySuffix]
    have hsuf : optOnlySuffix ts ≤ ts.length := optOnlySuffix_le_length ts
    cases hall : ts.all IsOptional with
    | true =>
      have hmin : FunctionArgumentsCounter.minArgs ts = 0 := (minArgs_eq_zero_iff ts).mpr hall
      cases hopt : IsOptional t with
      | true => simp [hopt, hall, hmin]
      | false =>
        simp only [hopt, hall, Bool.false_and, Bool.false_eq_true, if_false,
          List.length_cons, hmin, beq_self_eq_true, Bool.and_true]
        have : optOnlySuffix ts = ts.length := by
          cases ts with
          | nil => simp [optOnlySuffix]
          | cons u us =>
            simp only [List.all_cons, Bool.and_eq_true] at hall
            rw [optOnlySuffix]
            simp [hall.1, hall.2]
        omega
    | false =>
      have hmin0 : FunctionArgumentsCounter.minArgs ts ≠ 0 := by
        intro h0
        rw [(minArgs_eq_zero_iff ts).mp h0] at hall
        simp at hall
      have hcond : (IsOptional t && (FunctionArgumentsCounter.minArgs ts == 0)) = false := by
        cases hmv : (FunctionArgumentsCounter.minArgs ts == 0) with
        | true => exact absurd (by simpa using hmv) hmin0
        | false => simp
      simp only [hcond, hall, Bool.and_false, Bool.false_eq_true, if_false, List.length_cons]
      rw [ih]
      omega

/-! ## Claim theorems -/

/-- C1: the stack-balance invariant ("stack depth after = depth before plus
the documented net effect, on the success path and on every exception path")
is violated by `callRaw` on the out-of-memory path: when `lua_pcall` reports
`LUA_ERRMEM` it has pushed an error value, and `callRaw` throws
`std::bad_alloc` without popping it, so `executeCode` (documented net effect
0) ends one slot deeper than it started; on the success path the depth is
restored as documented. -/
theorem executeCode_errmem_leaks_one_slot :
    executeCode (.errMem (.str "not enough memory"))
      = .error (.badAlloc, [.str "not enough memory"])
    ∧ [LuaVal.str "not enough memory"].length = ([] : List LuaVal).length + 1
    ∧ executeCode (.success []) = .ok [] := by
  exact ⟨rfl, rfl, rfl⟩

/-- A concrete run of the dynamic (getter+setter) `registerMemberImpl` with
the five reference-shape tokens 0..4 (value, pointer, const pointer,
shared_ptr, shared_ptr-to-const), the five adapted getters 10..14 and the
three adapted setters 20..22, starting from an empty registry. -/
def dynRegExample : Registry :=
  registerMemberImplDyn [] 0 1 2 3 4
    (.luafunction 10) (.luafunction 11) (.luafunction 12) (.luafunction 13) (.luafunction 14)
    (.luafunction 20) (.luafunction 21) (.luafunction 22)

/-- C8: evaluating the dynamic registerMember registration shows that only
the value shape gets its setter into the default-setter slot 5; for the
pointer and shared_ptr shapes the source stores the setter at slot 2 (the
default-GETTER slot), overwriting the dynamic getter and leaving slot 5
empty, so a script write through those shapes falls through the `__newindex`
handler to the "No setter found" error.  This contradicts the source's own
slot-layout comment ("setter members at offset 4, default setter at offset
5") and the value-shape branch of the same function. -/
theorem dynamic_setter_wrong_slot :
    regSlot dynRegExample 0 2 = .luafunction 10
    ∧ regSlot dynRegExample 0 5 = .luafunction 20
    ∧ regSlot dynRegExample 1 2 = .luafunction 21
    ∧ regSlot dynRegExample 1 5 = .nil
    ∧ regSlot dynRegExample 3 2 = .luafunction 22
    ∧ regSlot dynRegExample 3 5 = .nil
    ∧ regGet dynRegExample 1 = .table [(.number 0, .table []), (.number 1, .table []),
        (.number 3, .table []), (.number 4, .table []), (.number 2, .luafunction 21)]
    ∧ newIndexFunction [(.number 0, .table []), (.number 1, .table []),
        (.number 3, .table []), (.number 4, .table []), (.number 2, .luafunction 21)]
        (.userdata (.obj 0) 0) (.str "field") (.number 1)
        = .errorNoSetter "No setter found" := by
  exact ⟨rfl, rfl, rfl, rfl, rfl, rfl, rfl, rfl⟩

/-- C9: a numeric slot is accepted by the integral reader exactly when its
numeric value has zero fractional part (the `fmod(x, 1.) == 0` check); an
integral value is returned unchanged, and a value with a nonzero fractional
part is rejected with `WrongTypeException` (observed category "number",
requested integral type) rather than truncated. -/
theorem integral_read_requires_zero_fraction (q : ℚ) :
    (Reader.test .int (.number q) = true ↔ q.den = 1)
    ∧ (q.den = 1 → Reader.testRead .int (.number q) = some (.int q.num))
    ∧ (q.den ≠ 1 → Reader.testRead .int (.number q) = none
        ∧ Reader.readSafe .int (.number q) = .error ⟨"number", .single .int⟩) := by
  refine ⟨?_, ?_, ?_⟩
  · simp [Reader.test, luaIsNumber, luaToNumber, luaToNumberD, ratIsInt]
  · intro h
    simp [Reader.testRead, luaIsNumber, luaToNumber, luaToNumberD, ratIsInt, ratToInt, h]
  · intro h
    constructor
    · simp [Reader.testRead, luaIsNumber, luaToNumber, luaToNumberD, ratIsInt, h]
    · simp [Reader.readSafe, Reader.testRead, luaIsNumber, luaToNumber, luaToNumberD,
        ratIsInt, h, luaTypeOf]

/-- Witness for C9 at the integral value 2 and the fractional value 5/2. -/
theorem integral_read_requires_zero_fraction_witness :
    Reader.testRead .int (.number (Rat.mk' 2 1)) = some (.int 2)
    ∧ Reader.testRead .int (.number (Rat.mk' 5 2)) = none := by
  refine ⟨(integral_read_requires_zero_fraction (Rat.mk' 2 1)).2.1 rfl, ?_⟩
  exact ((integral_read_requires_zero_fraction (Rat.mk' 5 2)).2.2 (by decide)).1

/-- C10: for every readable type `t`, a nil slot read at `boost::optional<t>`
succeeds as the empty optional in all four access modes, and
`readVariable<boost::optional<t>>` on an unset (nil) global returns the empty
optional with the stack unchanged. -/
theorem optional_reader_accepts_nil (t : HTy) :
    Reader.test (.opt t) .nil = true
    ∧ Reader.read (.opt t) .nil = .ok (.opt none)
    ∧ Reader.testRead (.opt t) .nil = some (.opt none)
    ∧ Reader.readSafe (.opt t) .nil = .ok (.opt none)
    ∧ ∀ (g : GEnv) (name : String) (st : List LuaVal), g name = .nil →
        readVariable (.opt t) g name st = .ok (.opt none, st) := by
  refine ⟨?_, ?_, ?_, ?_, ?_⟩
  · rw [Reader.test]
    simp [LuaVal.isNil]
  · rw [Reader.read]
    simp [LuaVal.isNil]
  · rw [Reader.testRead]
    simp [LuaVal.isNil]
  · rw [Reader.readSafe]
    simp [LuaVal.isNil]
  · intro g name st h
    rw [readVariable, h, readTopAndPop]
    rw [Reader.testRead]
    simp [LuaVal.isNil]

/-- Witness for C10 at `t = int` on an unset global of the empty
environment. -/
theorem optional_reader_accepts_nil_witness :
    readVariable (.opt .int) emptyEnv "a" [] = .ok (.opt none, []) :=
  (optional_reader_accepts_nil .int).2.2.2.2 emptyEnv "a" [] rfl

section ClaimEvaluation

set_option maxRecDepth 100000

unseal Reader.test Reader.testAny Reader.read Reader.testRead Reader.readSafe
  Reader.tableTestRead Reader.tableReadSafe Reader.variantTestRead Reader.variantReadSafe

/-- C5 counterexample: a string-valued slot holding the numeric string "42"
read into `SumType<Bool,Int,String>` resolves to the Int alternative (index
1), not the String alternative (index 2), because `Reader<int>::test` uses
`lua_isnumber`, which accepts number-convertible strings. -/
theorem variant_numeric_string_resolves_to_int :
    Reader.readSafe (.sum [.bool, .int, .str]) (.str "42") = .ok (.variant 1 (.int 42))
    ∧ HVal.variant 1 (.int 42) ≠ HVal.variant 2 (.str "42") := by
  refine ⟨rfl, ?_⟩
  intro h
  simp at h

/-- C5 (amended): variant reading tries the declared alternatives left to
right and selects the first whose `test` succeeds, so an ambiguous value
resolves to the earliest matching alternative; the read fails (with the
observed category and the full variant identity) only when no alternative
matches.  A string slot resolves to the String alternative of
`SumType<Bool,Int,String>` whenever its contents are not convertible to a
number (a numeric string resolves to the earlier Int alternative instead). -/
theorem variant_first_match_resolution :
    (∀ (ts : List HTy) (v : LuaVal), Reader.testAny ts v = false →
      Reader.readSafe (.sum ts) v = .error ⟨luaTypeOf v, .single (.sum ts)⟩)
    ∧ (∀ (pre : List HTy) (t : HTy) (post : List HTy) (v : LuaVal),
      (∀ u ∈ pre, Reader.test u v = false) → Reader.test t v = true →
      Reader.readSafe (.sum (pre ++ t :: post)) v
        = (Reader.read t v).map (fun h => .variant pre.length h))
    ∧ (∀ s : String, parseNum s = none →
      Reader.readSafe (.sum [.bool, .int, .str]) (.str s) = .ok (.variant 2 (.str s))) := by
  refine ⟨?_, ?_, ?_⟩
  · intro ts v h
    rw [Reader.readSafe]
    exact variantReadSafe_nomatch ts 0 ts v ((testAny_eq_false_iff ts v).mp h)
  · intro pre t post v hpre ht
    rw [Reader.readSafe]
    have := variantReadSafe_first_match (pre ++ t :: post) 0 pre t post v hpre ht
    simpa using this
  · intro s hs
    have h2 : Reader.test .int (.str s) = false := by
      simp [Reader.test, luaIsNumber, luaToNumber, hs]
    have h1 : Reader.test .bool (.str s) = false := by
      simp [Reader.test, LuaVal.isBoolean]
    have h3 : Reader.test .str (.str s) = true := by
      simp [Reader.test, luaIsString, luaToString]
    have hsplit := variantReadSafe_first_match [HTy.bool, .int, .str] 0 [HTy.bool, .int]
      .str [] (.str s)
      (by
        intro u hu
        simp only [List.mem_cons, List.mem_singleton] at hu
        rcases hu with rfl | rfl | hu
        · exact h1
        · exact h2
        · simp at hu)
      h3
    rw [Reader.readSafe]
    rw [show ([HTy.bool, HTy.int] ++ HTy.str :: ([] : List HTy))
        = [HTy.bool, .int, .str] from rfl] at hsplit
    rw [hsplit]
    simp [Reader.read, luaToString, Except.map]

/-- Witness for C5 (amended) at the non-numeric string "test", at a no-match
input, and at an explicit first-match split. -/
theorem variant_first_match_resolution_witness :
    Reader.readSafe (.sum [.bool, .int, .str]) (.str "test") = .ok (.variant 2 (.str "test"))
    ∧ Reader.readSafe (.sum [.bool]) (.number 1) = .error ⟨"number", .single (.sum [.bool])⟩
    ∧ Reader.readSafe (.sum ([.bool] ++ .num :: [])) (.number 1)
        = (Reader.read .num (.number 1)).map (fun h => .variant 1 h) := by
  refine ⟨variant_first_match_resolution.2.2 "test" rfl, ?_, ?_⟩
  · exact variant_first_match_resolution.1 [.bool] (.number 1) rfl
  · have := variant_first_match_resolution.2.1 [.bool] .num [] (.number 1)
      (by
        intro u hu
        simp only [List.mem_singleton] at hu
        subst hu
        rfl)
      rfl
    simpa using this

/-- C6 counterexample: the claim fails in two ways.  Reading the numeric
string "12" as Int succeeds (returning 12) instead of raising
WrongTypeError, because `lua_isnumber` accepts number-convertible strings
(the repository's own `BasicReadWrite.Conversions` test pins this behaviour);
and when a read does fail, the category name carried by the exception is
computed by `readTopAndPop` AFTER popping the value, so it names the slot
below (here the empty stack, "no value"), not the observed string. -/
theorem string_read_counterexample :
    readVariable .int (writeVariable emptyEnv "a" (.str "12")) "a" [] = .ok (.int 12, [])
    ∧ readVariable .bool (writeVariable emptyEnv "a" (.str "hello")) "a" []
        = .error (⟨"no value", .single .bool⟩, [])
    ∧ "no value" ≠ "string" := by
  refine ⟨rfl, rfl, ?_⟩
  intro h
  simp at h

/-- C6 (amended): reading a global holding a string that is not convertible
to a number as Bool, Int, Double, Function, or an opaque object type raises
`WrongTypeException` carrying the requested target type identity, with the
stack left exactly as before; the observed-category name in the exception is
taken from the slot that is on top AFTER the pop (so "no value" when the
operation started with an empty stack), not from the string itself.  (A
numeric string is instead accepted by the Int and Double readers.) -/
theorem string_read_wrong_type (s : String) (hs : parseNum s = none) (st : List LuaVal) :
    readVariable .bool (writeVariable emptyEnv "a" (.str s)) "a" st
        = .error (⟨luaTypenameTop st, .single .bool⟩, st)
    ∧ readVariable .int (writeVariable emptyEnv "a" (.str s)) "a" st
        = .error (⟨luaTypenameTop st, .single .int⟩, st)
    ∧ readVariable .num (writeVariable emptyEnv "a" (.str s)) "a" st
        = .error (⟨luaTypenameTop st, .single .num⟩, st)
    ∧ readVariable .fn (writeVariable emptyEnv "a" (.str s)) "a" st
        = .error (⟨luaTypenameTop st, .single .fn⟩, st)
    ∧ ∀ c : Nat, readVariable (.obj c) (writeVariable emptyEnv "a" (.str s)) "a" st
        = .error (⟨luaTypenameTop st, .single (.obj c)⟩, st) := by
  have henv : writeVariable emptyEnv "a" (.str s) "a" = .str s := writeVariable_self _ _ _
  refine ⟨?_, ?_, ?_, ?_, ?_⟩
  · rw [readVariable, henv, readTopAndPop]
    have : Reader.testRead .bool (.str s) = none := by
      simp [Reader.testRead, Reader.test, LuaVal.isBoolean]
    rw [this]
  · rw [readVariable, henv, readTopAndPop]
    have : Reader.testRead .int (.str s) = none := by
      simp [Reader.testRead, luaIsNumber, luaToNumber, hs]
    rw [this]
  · rw [readVariable, henv, readTopAndPop]
    have : Reader.testRead .num (.str s) = none := by
      simp [Reader.testRead, Reader.test, luaIsNumber, luaToNumber, hs]
    rw [this]
  · rw [readVariable, henv, readTopAndPop]
    have : Reader.testRead .fn (.str s) = none := by
      simp [Reader.testRead]
    rw [this]
  · intro c
    rw [readVariable, henv, readTopAndPop]
    have : Reader.testRead (.obj c) (.str s) = none := by
      simp [Reader.testRead, genericTestRead, genericTest]
    rw [this]

/-- Witness for C6 (amended) at the string "hello" on an empty stack. -/
theorem string_read_wrong_type_witness :
    readVariable .bool (writeVariable emptyEnv "a" (.str "hello")) "a" []
        = .error (⟨"no value", .single .bool⟩, [])
    ∧ readVariable (.obj 0) (writeVariable emptyEnv "a" (.str "hello")) "a" []
        = .error (⟨"no value", .single (.obj 0)⟩, []) := by
  refine ⟨(string_read_wrong_type "hello" rfl []).1, ?_⟩
  exact (string_read_wrong_type "hello" rfl []).2.2.2.2 0

/-- C7: resolution order of the `__newindex` handler on bound objects: (1) a
member setter registered under the exact key is invoked with the object and
the value; (2) otherwise a present default setter is invoked with the object,
the key and the value; (3) otherwise the error "No setter found" is
raised. -/
theorem newindex_resolution_order :
    (∀ (reg setters : List (LuaVal × LuaVal)) (obj key value h : LuaVal),
      rawget reg (.number 4) = .table setters →
      rawget setters key = h → h ≠ .nil →
      newIndexFunction reg obj key value = .memberSetter h [obj, value])
    ∧ (∀ (reg setters : List (LuaVal × LuaVal)) (obj key value h5 : LuaVal),
      rawget reg (.number 4) = .table setters →
      rawget setters key = .nil → rawget reg (.number 5) = h5 → h5 ≠ .nil →
      newIndexFunction reg obj key value = .defaultSetter h5 [obj, key, value])
    ∧ (∀ (reg setters : List (LuaVal × LuaVal)) (obj key value : LuaVal),
      rawget reg (.number 4) = .table setters →
      rawget setters key = .nil → rawget reg (.number 5) = .nil →
      newIndexFunction reg obj key value = .errorNoSetter "No setter found") := by
  refine ⟨?_, ?_, ?_⟩
  · intro reg setters obj key value h h4 hk hne
    simp only [newIndexFunction, h4]
    rw [hk]
    cases h <;> simp_all
  · intro reg setters obj key value h5 h4 hk h5eq hne
    simp only [newIndexFunction, h4]
    rw [hk]
    cases h5 <;> simp_all
  · intro reg setters obj key value h4 hk h5
    simp only [newIndexFunction, h4]
    rw [hk]
    simp only [h5]

/-- Witness for C7 on a concrete registration table holding a member setter
for key "k" and a default setter. -/
theorem newindex_resolution_order_witness :
    newIndexFunction [(.number 4, .table [(.str "k", .luafunction 5)]), (.number 5, .luafunction 6)]
        (.userdata (.obj 0) 0) (.str "k") (.number 1)
      = .memberSetter (.luafunction 5) [.userdata (.obj 0) 0, .number 1]
    ∧ newIndexFunction [(.number 4, .table [(.str "k", .luafunction 5)]), (.number 5, .luafunction 6)]
        (.userdata (.obj 0) 0) (.str "z") (.number 1)
      = .defaultSetter (.luafunction 6) [.userdata (.obj 0) 0, .str "z", .number 1]
    ∧ newIndexFunction [(.number 4, .table [(.str "k", .luafunction 5)])]
        (.userdata (.obj 0) 0) (.str "z") (.number 1)
      = .errorNoSetter "No setter found" := by
  refine ⟨?_, ?_, ?_⟩
  · exact newindex_resolution_order.1 _ _ _ _ _ _ rfl rfl (by intro h; simp at h)
  · exact newindex_resolution_order.2.1 _ _ _ _ _ _ rfl rfl rfl (by intro h; simp at h)
  · exact newindex_resolution_order.2.2 _ _ _ _ _ rfl rfl rfl

/-- C3: the arity contract of exposed host functions.  `min` equals the
parameter count minus the length of the Optional-only suffix (an Optional
parameter reduces the minimum only if every later parameter is also
satisfied by default), `max` is the parameter count; a call with fewer than
`min` or more than `max` provided arguments is answered with the arity error
message before any argument decoding is attempted (for every argument list
of that length, decodable or not); and concretely a function with parameters
(int, Optional of int, Optional of double) has min 1 and max 3, succeeds
with 1, 2 or 3 decodable arguments and gets an arity error with 0 or 4. -/
theorem arity_contract :
    (∀ ts : List HTy, FunctionArgumentsCounter.minArgs ts = ts.length - optOnlySuffix ts)
    ∧ (∀ (whereS : String) (ts : List HTy) (f : List HVal → Except Nat (List HVal))
        (args : List LuaVal), args.length < FunctionArgumentsCounter.minArgs ts →
        callback whereS ts f args = .err (.str (whereS ++ "This function requires at least " ++
          renderNum ((FunctionArgumentsCounter.minArgs ts : ℚ)) ++ " parameter(s)")))
    ∧ (∀ (whereS : String) (ts : List HTy) (f : List HVal → Except Nat (List HVal))
        (args : List LuaVal), args.length > ts.length →
        callback whereS ts f args = .err (.str (whereS ++ "This function requires at most " ++
          renderNum ((ts.length : ℚ)) ++ " parameter(s)")))
    ∧ (FunctionArgumentsCounter.minArgs [.int, .opt .int, .opt .num] = 1
      ∧ [HTy.int, .opt .int, .opt .num].length = 3
      ∧ callback "" [.int, .opt .int, .opt .num] (fun _ => Except.ok [HVal.int 0])
          [.number 12] = .ok [.number 0]
      ∧ callback "" [.int, .opt .int, .opt .num] (fun _ => Except.ok [HVal.int 0])
          [.number 12, .number 24] = .ok [.number 0]
      ∧ callback "" [.int, .opt .int, .opt .num] (fun _ => Except.ok [HVal.int 0])
          [.number 12, .number 24, .number (Rat.mk' 7 2)] = .ok [.number 0]
      ∧ callback "" [.int, .opt .int, .opt .num] (fun _ => Except.ok [HVal.int 0])
          [] = .err (.str "This function requires at least 1 parameter(s)")
      ∧ callback "" [.int, .opt .int, .opt .num] (fun _ => Except.ok [HVal.int 0])
          [.number 1, .number 2, .number 3, .number 4]
          = .err (.str "This function requires at most 3 parameter(s)")) := by
  refine ⟨minArgs_eq_length_sub_suffix, ?_, ?_, rfl, rfl, rfl, rfl, rfl, rfl, rfl⟩
  · intro whereS ts f args h
    rw [callback, if_pos h]
  · intro whereS ts f args h
    have hmin : FunctionArgumentsCounter.minArgs ts ≤ ts.length := minArgs_le_length ts
    rw [callback, if_neg (by omega), if_pos h]

/-- Witness for C3 applying the arity-error clauses at concrete calls. -/
theorem arity_contract_witness :
    callback "w" [.int] (fun _ => Except.ok []) []
      = .err (.str ("w" ++ "This function requires at least " ++ renderNum ((1 : ℚ)) ++ " parameter(s)"))
    ∧ callback "w" [] (fun _ => Except.ok []) [.nil]
      = .err (.str ("w" ++ "This function requires at most " ++ renderNum ((0 : ℚ)) ++ " parameter(s)")) := by
  constructor
  · have := arity_contract.2.1 "w" [.int] (fun _ => Except.ok []) [] (by decide)
    simpa using this
  · have := arity_contract.2.2.1 "w" [] (fun _ => Except.ok []) [.nil] (by decide)
    simpa using this

/-- C4 counterexample: a host exception raised during ARGUMENT DECODING is
not transported as an opaque error object — the callback catches the
`WrongTypeException` and raises a plain string error message instead (only
invocation/encoding exceptions become the pushed `std::exception_ptr`
userdata). -/
theorem decode_error_is_string_not_opaque :
    callback "" [.int] (fun _ => Except.ok []) [.str "hello"]
      = .err (.str "Unable to convert parameter from unknown to tuple<int>")
    ∧ ∀ e : Nat, CbOut.err (.str "Unable to convert parameter from unknown to tuple<int>")
        ≠ CbOut.err (.userdata .exnPtr e) := by
  refine ⟨rfl, ?_⟩
  intro e h
  simp at h

/-- C4 (amended): within the arity bounds, an argument-decoding failure is
reported to the runtime as a plain string error ("Unable to convert
parameter from ... to ..."), while an exception from the host callable's
invocation (or result encoding) is captured as a `std::exception_ptr` pushed
in a userdata in place of the result; in both cases the call is reported
failed.  On the host side a failed protected call is classified as: (a)
`LUA_ERRMEM` becomes `std::bad_alloc` (an allocation failure), (b) a
string-valued error becomes `ExecutionErrorException` carrying that string,
and (c) a transported `std::exception_ptr` is rethrown nested inside an
`ExecutionErrorException`. -/
theorem exception_transport :
    (∀ (whereS : String) (ts : List HTy) (f : List HVal → Except Nat (List HVal))
        (args : List LuaVal) (e : Err),
      FunctionArgumentsCounter.minArgs ts ≤ args.length → args.length ≤ ts.length →
      Reader.tupleReadSafe ts args (args.length : ℤ) = .error e →
      callback whereS ts f args = .err (.str (whereS ++ "Unable to convert parameter from "
        ++ e.luaType ++ " to " ++ targetName e.target)))
    ∧ (∀ (whereS : String) (ts : List HTy) (f : List HVal → Except Nat (List HVal))
        (args : List LuaVal) (vals : List HVal) (exn : Nat),
      FunctionArgumentsCounter.minArgs ts ≤ args.length → args.length ≤ ts.length →
      Reader.tupleReadSafe ts args (args.length : ℤ) = .ok vals →
      f vals = .error exn →
      callback whereS ts f args = .err (.userdata .exnPtr exn))
    ∧ (∀ (below : List LuaVal) (e : LuaVal),
      callRaw below (.errMem e) = .error (.badAlloc, e :: below))
    ∧ (∀ s : String, callRaw [] (.errRun (.str s)) = .error (.executionError s, []))
    ∧ (∀ p : Nat, callRaw [] (.errRun (.userdata .exnPtr p)) =
        .error (.executionErrorNested "Exception thrown by a callback function called by Lua" p, [])) := by
  refine ⟨?_, ?_, ?_, ?_, ?_⟩
  · intro whereS ts f args e hmin hmax hdec
    rw [callback, if_neg (by omega), if_neg (by omega), hdec]
  · intro whereS ts f args vals exn hmin hmax hdec hf
    rw [callback, if_neg (by omega), if_neg (by omega), hdec]
    simp only [hf]
  · intro below e
    rfl
  · intro s
    rw [callRaw]
    have h1 : luaIsStringAt1 [LuaVal.str s] = true := by
      simp [luaIsStringAt1, luaIsString, luaToString]
    rw [if_pos h1, readTopAndPop]
    have h2 : Reader.testRead .str (.str s) = some (.str s) := by
      simp [Reader.testRead, luaToString]
    rw [h2]
  · intro p
    rw [callRaw]
    have h1 : luaIsStringAt1 [LuaVal.userdata .exnPtr p] = false := by
      simp [luaIsStringAt1, luaIsString, luaToString]
    rw [if_neg (by simp [h1]), readTopAndPop]
    have h2 : Reader.testRead .exnPtr (.userdata .exnPtr p) = some (.obj .exnPtr p) := by
      simp [Reader.testRead, genericTestRead, genericTest, HTy.beq]
    rw [h2]

/-- Witness for C4 applying the capture clauses at a concrete undecodable
call, a concrete throwing host callable, and the three classification
clauses at concrete error values. -/
theorem exception_transport_witness :
    callback "" [.int] (fun _ => Except.ok []) [.str "x"]
      = .err (.str ("" ++ "Unable to convert parameter from " ++ "unknown" ++ " to "
          ++ targetName (.tuple [.int])))
    ∧ callback "" [.int] (fun _ => Except.error 7) [.number 3]
      = .err (.userdata .exnPtr 7)
    ∧ callRaw [] (.errMem (.str "not enough memory"))
      = .error (.badAlloc, [.str "not enough memory"])
    ∧ callRaw [] (.errRun (.str "oops")) = .error (.executionError "oops", [])
    ∧ callRaw [] (.errRun (.userdata .exnPtr 9)) =
        .error (.executionErrorNested "Exception thrown by a callback function called by Lua" 9, []) := by
  refine ⟨?_, ?_, exception_transport.2.2.1 [] (.str "not enough memory"),
    exception_transport.2.2.2.1 "oops", exception_transport.2.2.2.2 9⟩
  · exact exception_transport.1 "" [.int] (fun _ => Except.ok []) [.str "x"]
      ⟨"unknown", .tuple [.int]⟩ (by decide) (by decide) rfl
  · exact exception_transport.2.1 "" [.int] (fun _ => Except.error 7) [.number 3]
      [.int 3] 7 (by decide) (by decide) rfl rfl

theorem readVar_after_write (t : HTy) (g : GEnv) (name : String) (st : List LuaVal)
    (v w : HVal) (h : Reader.testRead t (hostToLua v) = some w) :
    readVariable t (writeVariable g name v) name st = .ok (w, st) := by
  rw [readVariable, writeVariable_self]
  simp [readTopAndPop, h]

theorem readVar_after_write_fails (t : HTy) (g : GEnv) (name : String) (st : List LuaVal)
    (v : HVal) (h : Reader.testRead t (hostToLua v) = none) :
    readVariable t (writeVariable g name v) name st
      = .error (⟨luaTypenameTop st, .single t⟩, st) := by
  rw [readVariable, writeVariable_self]
  simp [readTopAndPop, h]

/-- C2 counterexample: the round-trip fails for the sequence category.  A
`std::vector<int>` written by `writeVariable` becomes a Lua table, but the
source has no `Reader` for `std::vector`, so reading the variable back at
the same type goes through the generic custom-object reader, which rejects a
table, and `readVariable` throws `WrongTypeException` instead of returning
the written sequence. -/
theorem seq_roundtrip_fails :
    readVariable (.seq .int) (writeVariable emptyEnv "a" (.seq [.int 42])) "a" []
      = .error (⟨"no value", .single (.seq .int)⟩, []) := rfl

/-- C2 (amended): writing then reading back at the same type returns the
written value for booleans, integers, doubles, strings, and optionals of
those scalar types; for associative maps and sequences-of-pairs over those
scalar types whose written keys are pairwise distinct, the read returns
exactly the written pairs (in the runtime's table-traversal order, which the
model fixes to insertion order; host map equality is content-based).
Reading a written sequence back at the vector type itself always fails with
`WrongTypeException` (the value must be read element-wise or as a map /
sequence-of-pairs instead), and tuples are rejected by `writeVariable` at
compile time. -/
theorem roundtrip_by_category :
    (∀ (g : GEnv) (name : String) (st : List LuaVal) (b : Bool),
      readVariable .bool (writeVariable g name (.bool b)) name st = .ok (.bool b, st))
    ∧ (∀ (g : GEnv) (name : String) (st : List LuaVal) (n : ℤ),
      readVariable .int (writeVariable g name (.int n)) name st = .ok (.int n, st))
    ∧ (∀ (g : GEnv) (name : String) (st : List LuaVal) (q : ℚ),
      readVariable .num (writeVariable g name (.num q)) name st = .ok (.num q, st))
    ∧ (∀ (g : GEnv) (name : String) (st : List LuaVal) (s : String),
      readVariable .str (writeVariable g name (.str s)) name st = .ok (.str s, st))
    ∧ (∀ (g : GEnv) (name : String) (st : List LuaVal) (t : HTy),
      readVariable (.opt t) (writeVariable g name (.opt none)) name st = .ok (.opt none, st))
    ∧ (∀ (g : GEnv) (name : String) (st : List LuaVal) (t : HTy) (v : HVal),
      FlatOk t v = true →
      readVariable (.opt t) (writeVariable g name (.opt (some v))) name st
        = .ok (.opt (some v), st))
    ∧ (∀ (g : GEnv) (name : String) (st : List LuaVal) (kt vt : HTy)
        (l : List (HVal × HVal)),
      (∀ p ∈ l, FlatOk kt p.1 = true ∧ FlatOk vt p.2 = true) →
      l.Pairwise (fun p q => luaRawEq (hostToLua p.1) (hostToLua q.1) = false) →
      readVariable (.assocMap kt vt) (writeVariable g name (.assoc l)) name st
        = .ok (.assoc l, st))
    ∧ (∀ (g : GEnv) (name : String) (st : List LuaVal) (kt vt : HTy)
        (l : List (HVal × HVal)),
      (∀ p ∈ l, FlatOk kt p.1 = true ∧ FlatOk vt p.2 = true) →
      l.Pairwise (fun p q => luaRawEq (hostToLua p.1) (hostToLua q.1) = false) →
      readVariable (.seqPairs kt vt) (writeVariable g name (.pairs l)) name st
        = .ok (.pairs l, st))
    ∧ (∀ (g : GEnv) (name : String) (st : List LuaVal) (t : HTy) (l : List HVal),
      readVariable (.seq t) (writeVariable g name (.seq l)) name st
        = .error (⟨luaTypenameTop st, .single (.seq t)⟩, st)) := by
  refine ⟨?_, ?_, ?_, ?_, ?_, ?_, ?_, ?_, ?_⟩
  · intro g name st b
    exact readVar_after_write _ _ _ _ _ _ (flat_roundtrip .bool (.bool b) rfl)
  · intro g name st n
    exact readVar_after_write _ _ _ _ _ _ (flat_roundtrip .int (.int n) rfl)
  · intro g name st q
    exact readVar_after_write _ _ _ _ _ _ (flat_roundtrip .num (.num q) rfl)
  · intro g name st s
    exact readVar_after_write _ _ _ _ _ _ (flat_roundtrip .str (.str s) rfl)
  · intro g name st t
    refine readVar_after_write _ _ _ _ _ _ ?_
    rw [show hostToLua (.opt none) = .nil from rfl, Reader.testRead]
    simp [LuaVal.isNil]
  · intro g name st t v hv
    refine readVar_after_write _ _ _ _ _ _ ?_
    rw [show hostToLua (.opt (some v)) = hostToLua v from rfl, Reader.testRead]
    simp [flat_not_nil t v hv, flat_roundtrip t v hv]
  · intro g name st kt vt l hflat hpw
    refine readVar_after_write _ _ _ _ _ _ ?_
    have hassoc : hostToLua (.assoc l) = .table (pairsFold l []) := rfl
    rw [hassoc, pairsFold_eq_append l []
      (fun p hp => flat_not_nil vt p.2 (hflat p hp).2)
      (fun p _ q hq => absurd hq (List.not_mem_nil q))
      hpw]
    rw [Reader.testRead]
    simp [tableTestRead_map kt vt l hflat]
  · intro g name st kt vt l hflat hpw
    refine readVar_after_write _ _ _ _ _ _ ?_
    have hpairs : hostToLua (.pairs l) = .table (pairsFold l []) := rfl
    rw [hpairs, pairsFold_eq_append l []
      (fun p hp => flat_not_nil vt p.2 (hflat p hp).2)
      (fun p _ q hq => absurd hq (List.not_mem_nil q))
      hpw]
    rw [Reader.testRead]
    simp [tableTestRead_map kt vt l hflat]
  · intro g name st t l
    refine readVar_after_write_fails _ _ _ _ _ ?_
    rw [show hostToLua (.seq l) = .table (seqFold 1 l []) from rfl, Reader.testRead]
    simp [genericTestRead, genericTest]

/-- Witness for C2 (amended) at concrete values of each
hypothesis-carrying category. -/
theorem roundtrip_by_category_witness :
    readVariable (.opt .str) (writeVariable emptyEnv "a" (.opt (some (.str "x")))) "a" []
      = .ok (.opt (some (.str "x")), [])
    ∧ readVariable (.assocMap .int .str)
        (writeVariable emptyEnv "a" (.assoc [(.int 1, .str "x"), (.int 2, .str "y")])) "a" []
      = .ok (.assoc [(.int 1, .str "x"), (.int 2, .str "y")], [])
    ∧ readVariable (.seqPairs .int .str)
        (writeVariable emptyEnv "a" (.pairs [(.int 1, .str "x")])) "a" []
      = .ok (.pairs [(.int 1, .str "x")], []) := by
  refine ⟨roundtrip_by_category.2.2.2.2.2.1 emptyEnv "a" [] .str (.str "x") rfl, ?_, ?_⟩
  · refine roundtrip_by_category.2.2.2.2.2.2.1 emptyEnv "a" [] .int .str
      [(.int 1, .str "x"), (.int 2, .str "y")] ?_ ?_
    · intro p hp
      simp only [List.mem_cons, List.not_mem_nil, or_false] at hp
      rcases hp with rfl | rfl <;> exact ⟨rfl, rfl⟩
    · refine List.Pairwise.cons ?_ (List.pairwise_singleton _ _)
      intro q hq
      simp only [List.mem_singleton] at hq
      subst hq
      rfl
  · refine roundtrip_by_category.2.2.2.2.2.2.2.1 emptyEnv "a" [] .int .str
      [(.int 1, .str "x")] ?_ (List.pairwise_singleton _ _)
    intro p hp
    simp only [List.mem_singleton] at hp
    subst hp
    exact ⟨rfl, rfl⟩

end ClaimEvaluation
